import Mathlib

/-!
Verification of the outreach dispatcher (`messages.py`) of the linkedin CLI
repository.  The definitions below are a shallow embedding of the data model
(SQLite rows of the `accounts`, `leads` and `message_logs` tables from
`db.py`) and of the operations `MessageSender._active_accounts`,
`MessageSender._update_account_activity`, `MessageSender._render` and
`MessageSender.send_messages`.  Timestamps are kept as ISO strings, exactly
as the source stores and compares them (SQLite TEXT comparison becomes the
lexicographic order on `String`).  The simulated transport
(`MessageSender._dispatch`, which may raise) becomes an explicit `sender`
function returning `none` on success and `some errorText` when the dispatch
raises, mirroring the `try/except` in `send_messages`.
-/

/-- `accounts.status` column: the three validated values
`'viva'` (Live), `'inestable'` (Unstable), `'muerta'` (Dead)
(see `AccountManager.update_account_status`). -/
inductive Status where
  | viva
  | inestable
  | muerta
deriving DecidableEq, Repr

/-- A row of the `accounts` table (schema in `db.py`). -/
structure Account where
  id : Nat
  groupId : Nat
  username : String
  aliasName : Option String
  password : Option String
  proxy : Option String
  status : Status
  sessionData : Option String
  lastActivity : Option String
  lastMessageAt : Option String
  lastError : Option String
  cooldownUntil : Option String
deriving DecidableEq, Repr

/-- A row of the `leads` table (schema in `db.py`). -/
structure Lead where
  id : Nat
  groupId : Nat
  firstName : Option String
  lastName : Option String
  profileUrl : String
  note : Option String
deriving DecidableEq, Repr

/-- A row of the `message_logs` table as inserted by
`MessageSender._log_message` (the wall-clock timestamp column is not
modelled; it never influences control flow). -/
structure LogEntry where
  accountId : Nat
  leadId : Nat
  status : String
  errorMessage : String
deriving DecidableEq, Repr

/-! ## Template rendering (`MessageSender._render`)

Python's `str.replace` performs left-to-right, non-overlapping textual
replacement of every occurrence.  We embed it on `List Char` with a fuel
argument equal to the length of the subject string, which is always
sufficient (each step consumes at least one character of the subject). -/

/-- `isPrefixL p s`: `p` is a prefix of `s` (on character lists). -/
def isPrefixL : List Char → List Char → Bool
  | [], _ => true
  | _ :: _, [] => false
  | p :: ps, c :: cs => p == c && isPrefixL ps cs

/-- `containsSub pat s`: `pat` occurs as a contiguous substring of `s`. -/
def containsSub (pat : List Char) : List Char → Bool
  | [] => isPrefixL pat []
  | c :: cs => isPrefixL pat (c :: cs) || containsSub pat cs

/-- Fuelled worker for Python `str.replace`: at each position, if `pat`
(non-empty) starts here, emit `rep` and continue after the occurrence,
otherwise keep the character and move on. -/
def replaceAllF (pat rep : List Char) : Nat → List Char → List Char
  | _, [] => []
  | 0, s => s
  | fuel + 1, c :: cs =>
    if 0 < pat.length ∧ isPrefixL pat (c :: cs) = true then
      rep ++ replaceAllF pat rep fuel ((c :: cs).drop pat.length)
    else
      c :: replaceAllF pat rep fuel cs

/-- Python `s.replace(pat, rep)` for non-empty `pat` (the two patterns used
by `_render` are non-empty literals). -/
def replaceAll (pat rep s : List Char) : List Char :=
  replaceAllF pat rep s.length s

/-- `MessageSender._render`: substitute `{first_name}` then `{last_name}`
(the iteration order of the `replacements` dict), a `NULL` field
contributing the empty string (`lead["first_name"] or ""`). -/
def render (template : String) (lead : Lead) : String :=
  String.mk
    (replaceAll "{last_name}".data (lead.lastName.getD "").data
      (replaceAll "{first_name}".data (lead.firstName.getD "").data template.data))

/-! ## Account selection (`MessageSender._active_accounts`)

The SQL query filters
`group_id = ? AND status = 'viva' AND (cooldown_until IS NULL OR cooldown_until <= ?)`
where `?` is the current UTC time as an ISO string, and orders the rows by
`COALESCE(alias, username)`.  SQLite compares TEXT values bytewise; we embed
that comparison as the lexicographic order `leChars` on character lists. -/

/-- Lexicographic order on character lists: SQLite's ordering of TEXT
values (ISO-8601 timestamps compare chronologically under it). -/
def leChars : List Char → List Char → Bool
  | [], _ => true
  | _ :: _, [] => false
  | a :: s, b :: t => a.toNat < b.toNat || (a == b && leChars s t)

/-- SQLite TEXT comparison `a <= b` on strings. -/
def strLe (a b : String) : Bool :=
  leChars a.data b.data

/-- The `WHERE` clause of `_active_accounts`: same group, status `'viva'`,
and `cooldown_until IS NULL OR cooldown_until <= now`. -/
def eligibleB (groupId : Nat) (now : String) (a : Account) : Bool :=
  a.groupId == groupId && a.status == Status.viva &&
    (match a.cooldownUntil with
     | none => true
     | some c => strLe c now)

/-- `COALESCE(alias, username)`, the `ORDER BY` key of `_active_accounts`. -/
def sortKey (a : Account) : String :=
  a.aliasName.getD a.username

/-- Insert an account into a list that is sorted by `sortKey`. -/
def insertByKey (a : Account) : List Account → List Account
  | [] => [a]
  | b :: bs => if strLe (sortKey a) (sortKey b) then a :: b :: bs else b :: insertByKey a bs

/-- Sort accounts by `COALESCE(alias, username)` (the `ORDER BY` of
`_active_accounts`; insertion sort models SQLite's ordered result set). -/
def sortAccounts : List Account → List Account
  | [] => []
  | a :: rest => insertByKey a (sortAccounts rest)

/-- `MessageSender._active_accounts`: the filtered, ordered snapshot of the
`accounts` table used for a dispatch run. -/
def activeAccounts (groupId : Nat) (now : String) (db : List Account) : List Account :=
  sortAccounts (db.filter (eligibleB groupId now))

/-! ## Post-dispatch health update (`MessageSender._update_account_activity`)

The SQL statement:
```
UPDATE accounts
   SET last_activity = ?,
       last_message_at = CASE WHEN ? THEN ? ELSE last_message_at END,
       last_error = ?,
       status = CASE WHEN ? THEN status ELSE 'inestable' END
 WHERE id = ?
```
with parameters `(now, success, now, NULL-if-success-else-error, success, id)`.
`now` is `datetime.utcnow()` rendered to an ISO string (the source calls it
twice in the same statement; both stand for the statement's wall-clock time
and are modelled by one parameter). -/

/-- Effect of `_update_account_activity` on the single matching row. -/
def updateAccountActivity (now : String) (success : Bool) (error : String) (a : Account) : Account :=
  { a with
    lastActivity := some now
    lastMessageAt := if success then some now else a.lastMessageAt
    lastError := if success then none else some error
    status := if success then a.status else Status.inestable }

/-- The `UPDATE ... WHERE id = ?` applied to the whole `accounts` table. -/
def applyUpdate (accountId : Nat) (now : String) (success : Bool) (error : String)
    (db : List Account) : List Account :=
  db.map (fun a => if a.id == accountId then updateAccountActivity now success error a else a)

/-! ## The dispatch loop (`MessageSender.send_messages`, lines 229-268)

```
lead_iter = iter(leads); total_sent = 0
while True:
    exhausted = True
    for account in accounts:
        sent_for_account = 0
        while sent_for_account < per_account:
            try: lead = next(lead_iter)
            except StopIteration: exhausted = True; break
            exhausted = False
            ... render, dispatch ...
            on exception: log error, degrade health, break
            on success:   log sent, refresh health, counters += 1
        if exhausted: break
    if exhausted: break
```
`accountTurn` is one account's inner `while`, `passAccounts` one `for` pass
(threading the `exhausted` flag), `runPasses` the outer `while True` with a
fuel bound; `leads.length + 1` passes always suffice because every pass that
does not stop consumes at least one lead (`runPasses_fuel_irrel` below). -/

/-- Mutable state of one run: the remaining lead iterator, the `accounts`
table, the `message_logs` table, and `total_sent`. -/
structure LoopSt where
  leadsLeft : List Lead
  db : List Account
  log : List LogEntry
  totalSent : Nat
deriving DecidableEq, Repr

section DispatchLoop

-- `sender acc lead msg = none` models `_dispatch` returning normally;
-- `some err` models it raising an exception with text `err`.
variable (sender : Account → Lead → String → Option String)
variable (now tpl : String) (per : Nat)

/-- The log entry produced by attempting `lead` via `acc` (the `try/except`
around `_dispatch` followed by `_log_message`). -/
def attemptEntry (acc : Account) (lead : Lead) : LogEntry :=
  match sender acc lead (render tpl lead) with
  | none => ⟨acc.id, lead.id, "sent", ""⟩
  | some err => ⟨acc.id, lead.id, "error", err⟩

/-- One account's inner `while sent_for_account < per_account` loop.  The
`exh` argument is the current value of the `exhausted` flag; the returned
Bool is its value when the inner loop exits. -/
def accountTurn (acc : Account) (cnt : Nat) (leads : List Lead) (exh : Bool)
    (db : List Account) (log : List LogEntry) (sent : Nat) : LoopSt × Bool :=
  if cnt < per then
    match leads with
    | [] => (⟨[], db, log, sent⟩, true)
    | lead :: rest =>
      match sender acc lead (render tpl lead) with
      | none =>
        accountTurn acc (cnt + 1) rest false
          (applyUpdate acc.id now true "" db)
          (log ++ [⟨acc.id, lead.id, "sent", ""⟩]) (sent + 1)
      | some err =>
        (⟨rest, applyUpdate acc.id now false err db,
          log ++ [⟨acc.id, lead.id, "error", err⟩], sent⟩, false)
  else (⟨leads, db, log, sent⟩, exh)

/-- One `for account in accounts` pass; stops early when the `exhausted`
flag is set after an account's turn. -/
def passAccounts : List Account → List Lead → Bool → List Account → List LogEntry → Nat →
    LoopSt × Bool
  | [], leads, exh, db, log, sent => (⟨leads, db, log, sent⟩, exh)
  | acc :: more, leads, exh, db, log, sent =>
    let r := accountTurn sender now tpl per acc 0 leads exh db log sent
    if r.2 then r
    else passAccounts more r.1.leadsLeft false r.1.db r.1.log r.1.totalSent

/-- The outer `while True` loop, with fuel (each pass starts with
`exhausted = True` and the run ends when a pass leaves it set). -/
def runPasses : Nat → List Account → List Lead → List Account → List LogEntry → Nat → LoopSt
  | 0, _, leads, db, log, sent => ⟨leads, db, log, sent⟩
  | fuel + 1, accs, leads, db, log, sent =>
    let r := passAccounts sender now tpl per accs leads true db log sent
    if r.2 then r.1
    else runPasses fuel accs r.1.leadsLeft r.1.db r.1.log r.1.totalSent

/-- The whole dispatch loop of `send_messages` on the account snapshot
`accs`, database `db` and lead list `leads` (fuel `leads.length + 1` is
sufficient, see `runPasses_fuel_irrel`). -/
def runLeadLoop (accs db : List Account) (leads : List Lead) : LoopSt :=
  runPasses sender now tpl per (leads.length + 1) accs leads db [] 0

end DispatchLoop

/-- `sent` column count of a run summary (entries written with status
`"sent"`). -/
def sentCount (log : List LogEntry) : Nat :=
  log.countP (fun e => e.status == "sent")

/-- `errored` count of a run summary (entries written with status
`"error"`). -/
def errorCount (log : List LogEntry) : Nat :=
  log.countP (fun e => e.status == "error")

/-- The distinct early-return reasons of `send_messages`, plus `completed`
for a run that reaches the dispatch loop. -/
inductive RunCondition where
  | noAccounts
  | noLeads
  | invalidDelays
  | invalidPerAccount
  | noTemplate
  | completed
deriving DecidableEq, Repr

/-- Observable outcome of `send_messages`: the terminal condition, the
`accounts` table after the run, the appended log entries, and
`total_sent`. -/
structure RunOutcome where
  condition : RunCondition
  accountsDb : List Account
  log : List LogEntry
  totalSent : Nat
deriving DecidableEq, Repr

/-- `MessageSender.send_messages`: validation steps in source order
(no live accounts, no leads, `delay_min < 0 or delay_max < delay_min`,
`per_account <= 0`, no template), then the dispatch loop.  Delays are
modelled as rationals (Python floats); they only pace the loop and never
influence any state transition. -/
def sendMessages (sender : Account → Lead → String → Option String) (now : String)
    (db : List Account) (groupId : Nat) (leads : List Lead)
    (delayMin delayMax : Rat) (perAccount : Int) (template : Option String) : RunOutcome :=
  let accounts := activeAccounts groupId now db
  if accounts.isEmpty then ⟨RunCondition.noAccounts, db, [], 0⟩
  else if leads.isEmpty then ⟨RunCondition.noLeads, db, [], 0⟩
  else if delayMin < 0 ∨ delayMax < delayMin then ⟨RunCondition.invalidDelays, db, [], 0⟩
  else if perAccount ≤ 0 then ⟨RunCondition.invalidPerAccount, db, [], 0⟩
  else
    match template with
    | none => ⟨RunCondition.noTemplate, db, [], 0⟩
    | some tpl =>
      let st := runLeadLoop sender now tpl perAccount.toNat accounts db leads
      ⟨RunCondition.completed, st.db, st.log, st.totalSent⟩

/-! ## Lemmas about rendering -/

lemma isPrefixL_refl (l : List Char) : isPrefixL l l = true := by
  induction l with
  | nil => rfl
  | cons c cs ih => simp [isPrefixL, ih]

lemma containsSub_cons (pat : List Char) (c : Char) (cs : List Char) :
    containsSub pat (c :: cs) = (isPrefixL pat (c :: cs) || containsSub pat cs) := rfl

lemma replaceAllF_of_not_contains (pat rep : List Char) :
    ∀ (fuel : Nat) (s : List Char), containsSub pat s = false →
      replaceAllF pat rep fuel s = s := by
  intro fuel
  induction fuel with
  | zero => intro s _; cases s <;> rfl
  | succ f ih =>
    intro s h
    cases s with
    | nil => rfl
    | cons c cs =>
      rw [containsSub_cons] at h
      have h1 : isPrefixL pat (c :: cs) = false := by
        cases hp : isPrefixL pat (c :: cs) <;> simp [hp] at h ⊢
      have h2 : containsSub pat cs = false := by
        cases hp : containsSub pat cs <;> simp [hp] at h ⊢
      show replaceAllF pat rep (f + 1) (c :: cs) = c :: cs
      rw [replaceAllF, if_neg (by simp [h1]), ih cs h2]

lemma replaceAll_of_not_contains (pat rep s : List Char)
    (h : containsSub pat s = false) : replaceAll pat rep s = s :=
  replaceAllF_of_not_contains pat rep s.length s h

lemma replaceAllF_nil (pat rep : List Char) (fuel : Nat) :
    replaceAllF pat rep fuel [] = [] := by
  cases fuel <;> rfl

/-- Replacing a non-empty pattern inside exactly itself yields the
replacement text. -/
lemma replaceAll_self (pat rep : List Char) (h : pat ≠ []) :
    replaceAll pat rep pat = rep := by
  cases pat with
  | nil => exact absurd rfl h
  | cons c cs =>
    show replaceAllF (c :: cs) rep (c :: cs).length (c :: cs) = rep
    rw [List.length_cons, replaceAllF,
      if_pos ⟨by simp, isPrefixL_refl (c :: cs)⟩]
    rw [List.drop_length, replaceAllF_nil, List.append_nil]

lemma string_mk_data (s : String) : String.mk s.data = s := rfl

/-- The fuel `s.length` used by `replaceAll` is irrelevant: any fuel of at
least the subject's length produces the same result, so the fuelled
definition agrees with Python's unbounded scan. -/
lemma replaceAllF_fuel_irrel (pat rep : List Char) :
    ∀ (f1 : Nat) (s : List Char) (f2 : Nat), s.length ≤ f1 → s.length ≤ f2 →
      replaceAllF pat rep f1 s = replaceAllF pat rep f2 s := by
  intro f1
  induction f1 with
  | zero =>
    intro s f2 h1 _
    have : s = [] := List.eq_nil_of_length_eq_zero (Nat.le_zero.mp h1)
    subst this
    rw [replaceAllF_nil, replaceAllF_nil]
  | succ f ih =>
    intro s f2 h1 h2
    cases s with
    | nil => rw [replaceAllF_nil, replaceAllF_nil]
    | cons c cs =>
      cases f2 with
      | zero => simp at h2
      | succ f2' =>
        rw [replaceAllF, replaceAllF]
        by_cases hc : 0 < pat.length ∧ isPrefixL pat (c :: cs) = true
        · rw [if_pos hc, if_pos hc]
          have hlen : ((c :: cs).drop pat.length).length ≤ f := by
            simp only [List.length_drop, List.length_cons] at *
            omega
          have hlen2 : ((c :: cs).drop pat.length).length ≤ f2' := by
            simp only [List.length_drop, List.length_cons] at *
            omega
          rw [ih _ f2' hlen hlen2]
        · rw [if_neg hc, if_neg hc]
          have hlen : cs.length ≤ f := by simp at h1; omega
          have hlen2 : cs.length ≤ f2' := by simp at h2; omega
          rw [ih _ f2' hlen hlen2]

/-! ## Lemmas about account selection -/

lemma mem_insertByKey {a b : Account} {l : List Account} :
    a ∈ insertByKey b l ↔ a = b ∨ a ∈ l := by
  induction l with
  | nil => simp [insertByKey]
  | cons c cs ih =>
    simp only [insertByKey]
    split
    · simp [List.mem_cons]
    · simp [List.mem_cons, ih]
      tauto

lemma mem_sortAccounts {a : Account} {l : List Account} :
    a ∈ sortAccounts l ↔ a ∈ l := by
  induction l with
  | nil => simp [sortAccounts]
  | cons c cs ih => simp [sortAccounts, mem_insertByKey, ih]

lemma eligibleB_eq_true {gid : Nat} {now : String} {a : Account} :
    eligibleB gid now a = true ↔
      a.groupId = gid ∧ a.status = Status.viva ∧
        (∀ c, a.cooldownUntil = some c → strLe c now = true) := by
  cases hc : a.cooldownUntil with
  | none => simp [eligibleB, hc]
  | some c => simp [eligibleB, hc, and_assoc]

lemma mem_activeAccounts {gid : Nat} {now : String} {db : List Account} {a : Account} :
    a ∈ activeAccounts gid now db ↔ a ∈ db ∧ eligibleB gid now a = true := by
  simp [activeAccounts, mem_sortAccounts, List.mem_filter]

/-! ## Lemmas about the dispatch loop -/

lemma sentCount_append (l1 l2 : List LogEntry) :
    sentCount (l1 ++ l2) = sentCount l1 + sentCount l2 :=
  List.countP_append _ l1 l2

section DispatchLemmas

variable (sender : Account → Lead → String → Option String)
variable (now tpl : String) (per : Nat)

lemma attemptEntry_leadId (acc : Account) (lead : Lead) :
    (attemptEntry sender tpl acc lead).leadId = lead.id := by
  cases hs : sender acc lead (render tpl lead) <;> simp [attemptEntry, hs]

lemma attemptEntry_of_none {acc : Account} {lead : Lead}
    (hs : sender acc lead (render tpl lead) = none) :
    attemptEntry sender tpl acc lead = ⟨acc.id, lead.id, "sent", ""⟩ := by
  simp [attemptEntry, hs]

lemma attemptEntry_of_some {acc : Account} {lead : Lead} {err : String}
    (hs : sender acc lead (render tpl lead) = some err) :
    attemptEntry sender tpl acc lead = ⟨acc.id, lead.id, "error", err⟩ := by
  simp [attemptEntry, hs]

lemma accountTurn_nil (acc : Account) (cnt : Nat) (exh : Bool) (db : List Account)
    (log : List LogEntry) (sent : Nat) :
    accountTurn sender now tpl per acc cnt [] exh db log sent =
      if cnt < per then (⟨[], db, log, sent⟩, true) else (⟨[], db, log, sent⟩, exh) := rfl

lemma accountTurn_cons (acc : Account) (cnt : Nat) (lead : Lead) (rest : List Lead)
    (exh : Bool) (db : List Account) (log : List LogEntry) (sent : Nat) :
    accountTurn sender now tpl per acc cnt (lead :: rest) exh db log sent =
      if cnt < per then
        match sender acc lead (render tpl lead) with
        | none =>
          accountTurn sender now tpl per acc (cnt + 1) rest false
            (applyUpdate acc.id now true "" db)
            (log ++ [⟨acc.id, lead.id, "sent", ""⟩]) (sent + 1)
        | some err =>
          (⟨rest, applyUpdate acc.id now false err db,
            log ++ [⟨acc.id, lead.id, "error", err⟩], sent⟩, false)
      else (⟨lead :: rest, db, log, sent⟩, exh) := rfl

lemma accountTurn_lim (acc : Account) {cnt : Nat} (leads : List Lead) (exh : Bool)
    (db : List Account) (log : List LogEntry) (sent : Nat) (h : ¬ cnt < per) :
    accountTurn sender now tpl per acc cnt leads exh db log sent =
      (⟨leads, db, log, sent⟩, exh) := by
  cases leads with
  | nil => rw [accountTurn_nil, if_neg h]
  | cons lead rest => rw [accountTurn_cons, if_neg h]

lemma accountTurn_none (acc : Account) {cnt : Nat} {lead : Lead} (rest : List Lead)
    (exh : Bool) (db : List Account) (log : List LogEntry) (sent : Nat)
    (h : cnt < per) (hs : sender acc lead (render tpl lead) = none) :
    accountTurn sender now tpl per acc cnt (lead :: rest) exh db log sent =
      accountTurn sender now tpl per acc (cnt + 1) rest false
        (applyUpdate acc.id now true "" db)
        (log ++ [⟨acc.id, lead.id, "sent", ""⟩]) (sent + 1) := by
  rw [accountTurn_cons, if_pos h, hs]

lemma accountTurn_some (acc : Account) {cnt : Nat} {lead : Lead} (rest : List Lead)
    (exh : Bool) (db : List Account) (log : List LogEntry) (sent : Nat) {err : String}
    (h : cnt < per) (hs : sender acc lead (render tpl lead) = some err) :
    accountTurn sender now tpl per acc cnt (lead :: rest) exh db log sent =
      (⟨rest, applyUpdate acc.id now false err db,
        log ++ [⟨acc.id, lead.id, "error", err⟩], sent⟩, false) := by
  rw [accountTurn_cons, if_pos h, hs]

/-- Trace of one account's inner loop: it consumes some prefix of the
remaining leads, appends exactly one log entry per consumed lead (the
`attemptEntry` of this account), adds the number of successes to
`total_sent`, reports `exhausted = true` only with the lead list emptied,
and consumes at least one lead whenever it can. -/
lemma accountTurn_spec (acc : Account) :
    ∀ (leads : List Lead) (cnt : Nat) (exh : Bool) (db : List Account)
      (log : List LogEntry) (sent : Nat),
      ∃ k, k ≤ leads.length ∧
        (accountTurn sender now tpl per acc cnt leads exh db log sent).1.leadsLeft =
          leads.drop k ∧
        (accountTurn sender now tpl per acc cnt leads exh db log sent).1.log =
          log ++ (leads.take k).map (attemptEntry sender tpl acc) ∧
        (accountTurn sender now tpl per acc cnt leads exh db log sent).1.totalSent =
          sent + sentCount ((leads.take k).map (attemptEntry sender tpl acc)) ∧
        ((exh = false ∨ cnt < per) →
          (accountTurn sender now tpl per acc cnt leads exh db log sent).2 = true →
            leads.drop k = []) ∧
        ((accountTurn sender now tpl per acc cnt leads exh db log sent).2 = false →
          cnt < per → leads ≠ [] → 1 ≤ k) := by
  intro leads
  induction leads with
  | nil =>
    intro cnt exh db log sent
    rw [accountTurn_nil]
    by_cases h : cnt < per
    · rw [if_pos h]
      refine ⟨0, Nat.le_refl 0, rfl, by simp, by simp [sentCount], ?_, ?_⟩
      · intro _ _; rfl
      · intro hstop; cases hstop
    · rw [if_neg h]
      refine ⟨0, Nat.le_refl 0, rfl, by simp, by simp [sentCount], ?_, ?_⟩
      · intro _ _; rfl
      · intro _ hc; exact absurd hc h
  | cons lead rest ih =>
    intro cnt exh db log sent
    by_cases h : cnt < per
    · cases hs : sender acc lead (render tpl lead) with
      | none =>
        obtain ⟨k, hk, h1, h2, h3, h4, h5⟩ :=
          ih (cnt + 1) false (applyUpdate acc.id now true "" db)
            (log ++ [⟨acc.id, lead.id, "sent", ""⟩]) (sent + 1)
        rw [accountTurn_none sender now tpl per acc rest exh db log sent h hs]
        refine ⟨k + 1, Nat.succ_le_succ hk, ?_, ?_, ?_, ?_, ?_⟩
        · exact h1
        · rw [h2, List.take_succ_cons, List.map_cons,
            attemptEntry_of_none sender tpl hs, List.append_assoc]
          rfl
        · rw [h3, List.take_succ_cons, List.map_cons,
            attemptEntry_of_none sender tpl hs, sentCount, sentCount,
            List.countP_cons]
          simp
          omega
        · intro _ hstop
          exact h4 (Or.inl rfl) hstop
        · intro _ _ _
          exact Nat.succ_le_succ (Nat.zero_le k)
      | some err =>
        rw [accountTurn_some sender now tpl per acc rest exh db log sent h hs]
        refine ⟨1, Nat.succ_le_succ (Nat.zero_le rest.length), rfl, ?_, ?_, ?_, ?_⟩
        · rw [List.take_succ_cons, List.take_zero, List.map_cons, List.map_nil,
            attemptEntry_of_some sender tpl hs]
        · simp [sentCount, attemptEntry_of_some sender tpl hs]
        · intro _ hstop
          cases hstop
        · intro _ _ _
          exact Nat.le_refl 1
    · rw [accountTurn_lim sender now tpl per acc (lead :: rest) exh db log sent h]
      refine ⟨0, Nat.zero_le _, rfl, by simp, by simp [sentCount], ?_, ?_⟩
      · rintro (he | hc) hstop
        · rw [he] at hstop; cases hstop
        · exact absurd hc h
      · intro _ hc _
        exact absurd hc h

lemma passAccounts_nil (leads : List Lead) (exh : Bool) (db : List Account)
    (log : List LogEntry) (sent : Nat) :
    passAccounts sender now tpl per [] leads exh db log sent =
      (⟨leads, db, log, sent⟩, exh) := rfl

lemma passAccounts_cons (acc : Account) (more : List Account) (leads : List Lead)
    (exh : Bool) (db : List Account) (log : List LogEntry) (sent : Nat) :
    passAccounts sender now tpl per (acc :: more) leads exh db log sent =
      (if (accountTurn sender now tpl per acc 0 leads exh db log sent).2 = true then
        accountTurn sender now tpl per acc 0 leads exh db log sent
      else
        passAccounts sender now tpl per more
          (accountTurn sender now tpl per acc 0 leads exh db log sent).1.leadsLeft false
          (accountTurn sender now tpl per acc 0 leads exh db log sent).1.db
          (accountTurn sender now tpl per acc 0 leads exh db log sent).1.log
          (accountTurn sender now tpl per acc 0 leads exh db log sent).1.totalSent) := rfl

/-- Trace of one `for account in accounts` pass: it consumes a prefix of
the remaining leads, appends one log entry per consumed lead (each the
`attemptEntry` of some account of the pass), adds successes to
`total_sent`, leaves `exhausted = true` only when the leads ran out, makes
progress whenever leads remain, and reports exhaustion on an empty lead
list. -/
lemma passAccounts_spec (hper : 1 ≤ per) :
    ∀ (accs : List Account) (leads : List Lead) (exh : Bool) (db : List Account)
      (log : List LogEntry) (sent : Nat),
      ∃ k, k ≤ leads.length ∧
        (passAccounts sender now tpl per accs leads exh db log sent).1.leadsLeft =
          leads.drop k ∧
        (passAccounts sender now tpl per accs leads exh db log sent).1.log.map
            (fun e => e.leadId) =
          log.map (fun e => e.leadId) ++ (leads.take k).map (fun l => l.id) ∧
        (∀ e ∈ (passAccounts sender now tpl per accs leads exh db log sent).1.log,
          e ∈ log ∨ ∃ a, a ∈ accs ∧ ∃ l, l ∈ leads ∧ e = attemptEntry sender tpl a l) ∧
        (passAccounts sender now tpl per accs leads exh db log sent).1.totalSent +
            sentCount log =
          sent + sentCount (passAccounts sender now tpl per accs leads exh db log sent).1.log ∧
        ((passAccounts sender now tpl per accs leads exh db log sent).2 = true →
          accs = [] ∨
            (passAccounts sender now tpl per accs leads exh db log sent).1.leadsLeft = []) ∧
        ((passAccounts sender now tpl per accs leads exh db log sent).2 = false →
          accs ≠ [] → leads ≠ [] → 1 ≤ k) ∧
        (accs ≠ [] → leads = [] →
          (passAccounts sender now tpl per accs leads exh db log sent).2 = true) := by
  intro accs
  induction accs with
  | nil =>
    intro leads exh db log sent
    rw [passAccounts_nil]
    refine ⟨0, Nat.zero_le _, rfl, by simp, fun e he => Or.inl he, by simp, ?_, ?_, ?_⟩
    · intro _; exact Or.inl rfl
    · intro _ habs; exact absurd rfl habs
    · intro habs; exact absurd rfl habs
  | cons acc more ih =>
    intro leads exh db log sent
    obtain ⟨k1, hk1, t1, t2, t3, t4, t5⟩ :=
      accountTurn_spec sender now tpl per acc leads 0 exh db log sent
    rw [passAccounts_cons]
    by_cases ht : (accountTurn sender now tpl per acc 0 leads exh db log sent).2 = true
    · rw [if_pos ht]
      refine ⟨k1, hk1, t1, ?_, ?_, ?_, ?_, ?_, ?_⟩
      · rw [t2, List.map_append, List.map_map]
        congr 1
        exact List.map_congr_left (fun l _ => attemptEntry_leadId sender tpl acc l)
      · intro e he
        rw [t2] at he
        rcases List.mem_append.mp he with hin | hin
        · exact Or.inl hin
        · rcases List.mem_map.mp hin with ⟨l, hl, rfl⟩
          exact Or.inr ⟨acc, List.mem_cons_self acc more, l, List.take_subset _ _ hl, rfl⟩
      · rw [t2, t3, sentCount_append]
        omega
      · intro _
        right
        rw [t1]
        exact t4 (Or.inr hper) ht
      · intro hstop
        rw [ht] at hstop
        cases hstop
      · intro _ _
        exact ht
    · have hf : (accountTurn sender now tpl per acc 0 leads exh db log sent).2 = false := by
        simpa using ht
      rw [if_neg ht, t1]
      obtain ⟨k2, hk2, g1, g2, g3, g4, g5, g6, g7⟩ :=
        ih (List.drop k1 leads) false
          (accountTurn sender now tpl per acc 0 leads exh db log sent).1.db
          (accountTurn sender now tpl per acc 0 leads exh db log sent).1.log
          (accountTurn sender now tpl per acc 0 leads exh db log sent).1.totalSent
      refine ⟨k1 + k2, ?_, ?_, ?_, ?_, ?_, ?_, ?_, ?_⟩
      · rw [List.length_drop] at hk2
        omega
      · rw [g1, List.drop_drop]
      · rw [g2, t2, List.map_append, List.map_map, List.take_add, List.map_append,
          List.append_assoc]
        congr 2
        exact List.map_congr_left (fun l _ => attemptEntry_leadId sender tpl acc l)
      · intro e he
        rcases g3 e he with hin | ⟨a, ha, l, hl, rfl⟩
        · rw [t2] at hin
          rcases List.mem_append.mp hin with hin2 | hin2
          · exact Or.inl hin2
          · rcases List.mem_map.mp hin2 with ⟨l, hl, rfl⟩
            exact Or.inr ⟨acc, List.mem_cons_self acc more, l, List.take_subset _ _ hl, rfl⟩
        · exact Or.inr ⟨a, List.mem_cons_of_mem acc ha, l, List.drop_subset _ _ hl, rfl⟩
      · have base : (accountTurn sender now tpl per acc 0 leads exh db log sent).1.totalSent +
            sentCount log =
            sent + sentCount (accountTurn sender now tpl per acc 0 leads exh db log sent).1.log := by
          rw [t2, t3, sentCount_append]
          omega
        omega
      · intro hstop
        rcases g5 hstop with hmore | hempty
        · subst hmore
          rw [passAccounts_nil] at hstop
          cases hstop
        · exact Or.inr hempty
      · intro _ _ hleads
        have := t5 hf hper hleads
        omega
      · intro _ hleads
        subst hleads
        have htrue : (accountTurn sender now tpl per acc 0 [] exh db log sent).2 = true := by
          rw [accountTurn_nil, if_pos (show 0 < per from hper)]
        rw [htrue] at hf
        cases hf

lemma runPasses_zero (accs : List Account) (leads : List Lead) (db : List Account)
    (log : List LogEntry) (sent : Nat) :
    runPasses sender now tpl per 0 accs leads db log sent = ⟨leads, db, log, sent⟩ := rfl

lemma runPasses_succ (fuel : Nat) (accs : List Account) (leads : List Lead)
    (db : List Account) (log : List LogEntry) (sent : Nat) :
    runPasses sender now tpl per (fuel + 1) accs leads db log sent =
      (if (passAccounts sender now tpl per accs leads true db log sent).2 = true then
        (passAccounts sender now tpl per accs leads true db log sent).1
      else
        runPasses sender now tpl per fuel accs
          (passAccounts sender now tpl per accs leads true db log sent).1.leadsLeft
          (passAccounts sender now tpl per accs leads true db log sent).1.db
          (passAccounts sender now tpl per accs leads true db log sent).1.log
          (passAccounts sender now tpl per accs leads true db log sent).1.totalSent) := rfl

/-- Trace of the whole `while True` loop, for any sufficient fuel: with a
non-empty account snapshot and `per_account >= 1` the loop stops only on
lead exhaustion, attempts every lead exactly once in order, draws every log
entry from an attempt by a snapshot account on a supplied lead, and counts
one success per `"sent"` entry. -/
lemma runPasses_spec (hper : 1 ≤ per) :
    ∀ (fuel : Nat) (accs : List Account) (leads : List Lead) (db : List Account)
      (log : List LogEntry) (sent : Nat), accs ≠ [] → leads.length < fuel →
      (runPasses sender now tpl per fuel accs leads db log sent).leadsLeft = [] ∧
      (runPasses sender now tpl per fuel accs leads db log sent).log.map
          (fun e => e.leadId) =
        log.map (fun e => e.leadId) ++ leads.map (fun l => l.id) ∧
      (∀ e ∈ (runPasses sender now tpl per fuel accs leads db log sent).log,
        e ∈ log ∨ ∃ a, a ∈ accs ∧ ∃ l, l ∈ leads ∧ e = attemptEntry sender tpl a l) ∧
      (runPasses sender now tpl per fuel accs leads db log sent).totalSent +
          sentCount log =
        sent + sentCount (runPasses sender now tpl per fuel accs leads db log sent).log := by
  intro fuel
  induction fuel with
  | zero =>
    intro accs leads db log sent _ hlen
    exact absurd hlen (Nat.not_lt_zero _)
  | succ f ih =>
    intro accs leads db log sent haccs hlen
    obtain ⟨k, hk, p1, p2, p3, p4, p5, p6, p7⟩ :=
      passAccounts_spec sender now tpl per hper accs leads true db log sent
    rw [runPasses_succ]
    by_cases hp : (passAccounts sender now tpl per accs leads true db log sent).2 = true
    · rw [if_pos hp]
      have hempty : (passAccounts sender now tpl per accs leads true db log sent).1.leadsLeft = [] := by
        rcases p5 hp with h | h
        · exact absurd h haccs
        · exact h
      have hklen : leads.length ≤ k := by
        rw [p1] at hempty
        exact List.drop_eq_nil_iff.mp hempty
      have htake : leads.take k = leads := List.take_of_length_le hklen
      refine ⟨hempty, ?_, ?_, ?_⟩
      · rw [p2, htake]
      · intro e he
        exact p3 e he
      · exact p4
    · rw [if_neg hp]
      have hpf : (passAccounts sender now tpl per accs leads true db log sent).2 = false := by
        simpa using hp
      have hne : leads ≠ [] := by
        intro hcontra
        rw [p7 haccs hcontra] at hpf
        cases hpf
      have hk1 : 1 ≤ k := p6 hpf haccs hne
      rw [p1]
      obtain ⟨r1, r2, r3, r4⟩ :=
        ih accs (List.drop k leads)
          (passAccounts sender now tpl per accs leads true db log sent).1.db
          (passAccounts sender now tpl per accs leads true db log sent).1.log
          (passAccounts sender now tpl per accs leads true db log sent).1.totalSent
          haccs (by rw [List.length_drop]; omega)
      refine ⟨r1, ?_, ?_, ?_⟩
      · rw [r2, p2, List.append_assoc]
        congr 1
        rw [← List.map_append]
        congr 1
        exact List.take_append_drop k leads
      · intro e he
        rcases r3 e he with hin | ⟨a, ha, l, hl, rfl⟩
        · rcases p3 e hin with hin2 | ⟨a, ha, l, hl, rfl⟩
          · exact Or.inl hin2
          · exact Or.inr ⟨a, ha, l, hl, rfl⟩
        · exact Or.inr ⟨a, ha, l, List.drop_subset _ _ hl, rfl⟩
      · omega

/-- Any two sufficient fuels give the same final state: the fuelled
`runPasses` agrees with Python's unbounded `while True` loop. -/
lemma runPasses_fuel_irrel (hper : 1 ≤ per) :
    ∀ (f1 : Nat) (accs : List Account) (leads : List Lead) (db : List Account)
      (log : List LogEntry) (sent : Nat) (f2 : Nat), accs ≠ [] →
      leads.length < f1 → leads.length < f2 →
      runPasses sender now tpl per f1 accs leads db log sent =
        runPasses sender now tpl per f2 accs leads db log sent := by
  intro f1
  induction f1 with
  | zero =>
    intro _ leads _ _ _ _ _ hlen _
    exact absurd hlen (Nat.not_lt_zero _)
  | succ f ih =>
    intro accs leads db log sent f2 haccs hlen hlen2
    obtain ⟨k, hk, p1, _, _, _, _, p6, p7⟩ :=
      passAccounts_spec sender now tpl per hper accs leads true db log sent
    cases f2 with
    | zero => exact absurd hlen2 (Nat.not_lt_zero _)
    | succ f2' =>
      rw [runPasses_succ, runPasses_succ]
      by_cases hp : (passAccounts sender now tpl per accs leads true db log sent).2 = true
      · rw [if_pos hp, if_pos hp]
      · rw [if_neg hp, if_neg hp]
        have hpf : (passAccounts sender now tpl per accs leads true db log sent).2 = false := by
          simpa using hp
        have hne : leads ≠ [] := by
          intro hcontra
          rw [p7 haccs hcontra] at hpf
          cases hpf
        have hk1 : 1 ≤ k := p6 hpf haccs hne
        apply ih accs
          (passAccounts sender now tpl per accs leads true db log sent).1.leadsLeft
          _ _ _ f2' haccs
        · rw [p1, List.length_drop]; omega
        · rw [p1, List.length_drop]; omega

/-- Within a single turn of the round-robin pass, an account performs at
most `per_account - sent_for_account` further successful sends: the inner
`while sent_for_account < per_account` loop respects its bound within one
pass. -/
lemma accountTurn_sent_le (acc : Account) :
    ∀ (leads : List Lead) (cnt : Nat) (exh : Bool) (db : List Account)
      (log : List LogEntry) (sent : Nat),
      (accountTurn sender now tpl per acc cnt leads exh db log sent).1.totalSent ≤
        sent + (per - cnt) := by
  intro leads
  induction leads with
  | nil =>
    intro cnt exh db log sent
    rw [accountTurn_nil]
    by_cases h : cnt < per
    · rw [if_pos h]; exact Nat.le_add_right sent _
    · rw [if_neg h]; exact Nat.le_add_right sent _
  | cons lead rest ih =>
    intro cnt exh db log sent
    by_cases h : cnt < per
    · cases hs : sender acc lead (render tpl lead) with
      | none =>
        rw [accountTurn_none sender now tpl per acc rest exh db log sent h hs]
        have := ih (cnt + 1) false (applyUpdate acc.id now true "" db)
          (log ++ [⟨acc.id, lead.id, "sent", ""⟩]) (sent + 1)
        omega
      | some err =>
        rw [accountTurn_some sender now tpl per acc rest exh db log sent h hs]
        exact Nat.le_add_right sent _
    · rw [accountTurn_lim sender now tpl per acc (lead :: rest) exh db log sent h]
      exact Nat.le_add_right sent _

/-- The evolving `accounts` table is never consulted by the loop: the
attempts made, the log, the remaining leads, `total_sent` and the
`exhausted` flag are identical for any two database states (the snapshot
rows drive everything). -/
lemma accountTurn_db_irrel (acc : Account) :
    ∀ (leads : List Lead) (cnt : Nat) (exh : Bool) (db1 db2 : List Account)
      (log : List LogEntry) (sent : Nat),
      (accountTurn sender now tpl per acc cnt leads exh db1 log sent).1.leadsLeft =
        (accountTurn sender now tpl per acc cnt leads exh db2 log sent).1.leadsLeft ∧
      (accountTurn sender now tpl per acc cnt leads exh db1 log sent).1.log =
        (accountTurn sender now tpl per acc cnt leads exh db2 log sent).1.log ∧
      (accountTurn sender now tpl per acc cnt leads exh db1 log sent).1.totalSent =
        (accountTurn sender now tpl per acc cnt leads exh db2 log sent).1.totalSent ∧
      (accountTurn sender now tpl per acc cnt leads exh db1 log sent).2 =
        (accountTurn sender now tpl per acc cnt leads exh db2 log sent).2 := by
  intro leads
  induction leads with
  | nil =>
    intro cnt exh db1 db2 log sent
    rw [accountTurn_nil, accountTurn_nil]
    by_cases h : cnt < per
    · rw [if_pos h, if_pos h]; exact ⟨rfl, rfl, rfl, rfl⟩
    · rw [if_neg h, if_neg h]; exact ⟨rfl, rfl, rfl, rfl⟩
  | cons lead rest ih =>
    intro cnt exh db1 db2 log sent
    by_cases h : cnt < per
    · cases hs : sender acc lead (render tpl lead) with
      | none =>
        rw [accountTurn_none sender now tpl per acc rest exh db1 log sent h hs,
          accountTurn_none sender now tpl per acc rest exh db2 log sent h hs]
        exact ih (cnt + 1) false _ _ _ _
      | some err =>
        rw [accountTurn_some sender now tpl per acc rest exh db1 log sent h hs,
          accountTurn_some sender now tpl per acc rest exh db2 log sent h hs]
        exact ⟨rfl, rfl, rfl, rfl⟩
    · rw [accountTurn_lim sender now tpl per acc (lead :: rest) exh db1 log sent h,
        accountTurn_lim sender now tpl per acc (lead :: rest) exh db2 log sent h]
      exact ⟨rfl, rfl, rfl, rfl⟩

lemma passAccounts_db_irrel :
    ∀ (accs : List Account) (leads : List Lead) (exh : Bool) (db1 db2 : List Account)
      (log : List LogEntry) (sent : Nat),
      (passAccounts sender now tpl per accs leads exh db1 log sent).1.leadsLeft =
        (passAccounts sender now tpl per accs leads exh db2 log sent).1.leadsLeft ∧
      (passAccounts sender now tpl per accs leads exh db1 log sent).1.log =
        (passAccounts sender now tpl per accs leads exh db2 log sent).1.log ∧
      (passAccounts sender now tpl per accs leads exh db1 log sent).1.totalSent =
        (passAccounts sender now tpl per accs leads exh db2 log sent).1.totalSent ∧
      (passAccounts sender now tpl per accs leads exh db1 log sent).2 =
        (passAccounts sender now tpl per accs leads exh db2 log sent).2 := by
  intro accs
  induction accs with
  | nil =>
    intro leads exh db1 db2 log sent
    rw [passAccounts_nil, passAccounts_nil]
    exact ⟨rfl, rfl, rfl, rfl⟩
  | cons acc more ih =>
    intro leads exh db1 db2 log sent
    obtain ⟨a1, a2, a3, a4⟩ := accountTurn_db_irrel sender now tpl per acc leads 0 exh db1 db2 log sent
    rw [passAccounts_cons, passAccounts_cons]
    by_cases ht : (accountTurn sender now tpl per acc 0 leads exh db1 log sent).2 = true
    · rw [if_pos ht, if_pos (a4 ▸ ht)]
      exact ⟨a1, a2, a3, a4⟩
    · rw [if_neg ht, if_neg (a4 ▸ ht)]
      rw [← a1, ← a2, ← a3]
      exact ih _ false _ _ _ _

lemma runPasses_db_irrel :
    ∀ (fuel : Nat) (accs : List Account) (leads : List Lead) (db1 db2 : List Account)
      (log : List LogEntry) (sent : Nat),
      (runPasses sender now tpl per fuel accs leads db1 log sent).leadsLeft =
        (runPasses sender now tpl per fuel accs leads db2 log sent).leadsLeft ∧
      (runPasses sender now tpl per fuel accs leads db1 log sent).log =
        (runPasses sender now tpl per fuel accs leads db2 log sent).log ∧
      (runPasses sender now tpl per fuel accs leads db1 log sent).totalSent =
        (runPasses sender now tpl per fuel accs leads db2 log sent).totalSent := by
  intro fuel
  induction fuel with
  | zero =>
    intro accs leads db1 db2 log sent
    rw [runPasses_zero, runPasses_zero]
    exact ⟨rfl, rfl, rfl⟩
  | succ f ih =>
    intro accs leads db1 db2 log sent
    obtain ⟨a1, a2, a3, a4⟩ := passAccounts_db_irrel sender now tpl per accs leads true db1 db2 log sent
    rw [runPasses_succ, runPasses_succ]
    by_cases hp : (passAccounts sender now tpl per accs leads true db1 log sent).2 = true
    · rw [if_pos hp, if_pos (a4 ▸ hp)]
      exact ⟨a1, a2, a3⟩
    · rw [if_neg hp, if_neg (a4 ▸ hp)]
      rw [← a1, ← a2, ← a3]
      exact ih accs _ _ _ _ _

end DispatchLemmas

/-! ## Concrete fixtures used by counterexamples and witnesses -/

def acctViva1 : Account :=
  ⟨1, 1, "alpha", none, none, none, Status.viva, none, none, none, none, none⟩

def acctViva2 : Account :=
  ⟨2, 1, "beta", none, none, none, Status.viva, none, none, none, none, none⟩

def acctUnstable : Account :=
  ⟨3, 1, "gamma", none, none, none, Status.inestable, none, none, none, none, none⟩

def acctDead : Account :=
  ⟨4, 1, "delta", none, none, none, Status.muerta, none, none, none, none, none⟩

def lead1 : Lead := ⟨11, 1, some "Ana", some "Diaz", "u1", none⟩

def lead2 : Lead := ⟨12, 1, some "Luis", some "Mora", "u2", none⟩

def lead3 : Lead := ⟨13, 1, some "Eva", none, "u3", none⟩

/-- A transport whose `_dispatch` raises on every call. -/
def failSender : Account → Lead → String → Option String := fun _ _ _ => some "boom"

/-- A transport whose `_dispatch` always returns normally. -/
def okSender : Account → Lead → String → Option String := fun _ _ _ => none

/-! ## Claim C1 -/

/-- Claim C1 is false on the code: in the cited scenario (2 live accounts,
`per_account = 1`, 3 leads, every dispatch failing) the run makes one
attempt per lead — `errored` is 3, not 2 — and account 1 is attempted
twice, exceeding the claimed per-run cap of 1.  The counter
`sent_for_account` is reset on every round-robin pass and a failed attempt
never increments it, so no per-run bound on attempts exists. -/
theorem C1_counterexample :
    errorCount (runLeadLoop failSender "T" "m" 1 [acctViva1, acctViva2]
        [acctViva1, acctViva2] [lead1, lead2, lead3]).log = 3 ∧
    ¬ errorCount (runLeadLoop failSender "T" "m" 1 [acctViva1, acctViva2]
        [acctViva1, acctViva2] [lead1, lead2, lead3]).log = 2 ∧
    (runLeadLoop failSender "T" "m" 1 [acctViva1, acctViva2]
        [acctViva1, acctViva2] [lead1, lead2, lead3]).log.countP
      (fun e => e.accountId == 1) = 2 ∧
    ¬ (runLeadLoop failSender "T" "m" 1 [acctViva1, acctViva2]
        [acctViva1, acctViva2] [lead1, lead2, lead3]).log.countP
      (fun e => e.accountId == 1) ≤ 1 := by
  decide

/-- Claim C1 (amended): the per-account counter bounds only the successful
sends of one account's turn within a single round-robin pass (at most
`per_account - sent_for_account` more successes per turn); it is reset
every pass and failed attempts are not counted, so attempts per run are
unbounded by it.  In the scenario with 2 accounts, `perAccountLimit = 1`,
3 leads and an always-failing Sender, the run ends with `errored == 3`,
`sent == 0`, both accounts `Unstable`, and terminates because the leads
are exhausted (account 1 being attempted twice). -/
theorem C1_theorem :
    (∀ (sender : Account → Lead → String → Option String) (now tpl : String)
      (per : Nat) (acc : Account) (leads : List Lead) (cnt : Nat) (exh : Bool)
      (db : List Account) (log : List LogEntry) (sent : Nat),
      (accountTurn sender now tpl per acc cnt leads exh db log sent).1.totalSent ≤
        sent + (per - cnt)) ∧
    errorCount (runLeadLoop failSender "T" "m" 1 [acctViva1, acctViva2]
        [acctViva1, acctViva2] [lead1, lead2, lead3]).log = 3 ∧
    sentCount (runLeadLoop failSender "T" "m" 1 [acctViva1, acctViva2]
        [acctViva1, acctViva2] [lead1, lead2, lead3]).log = 0 ∧
    (runLeadLoop failSender "T" "m" 1 [acctViva1, acctViva2]
        [acctViva1, acctViva2] [lead1, lead2, lead3]).db.map Account.status =
      [Status.inestable, Status.inestable] ∧
    (runLeadLoop failSender "T" "m" 1 [acctViva1, acctViva2]
        [acctViva1, acctViva2] [lead1, lead2, lead3]).leadsLeft = [] := by
  refine ⟨?_, by decide, by decide, by decide, by decide⟩
  intro sender now tpl per acc leads cnt exh db log sent
  exact accountTurn_sent_le sender now tpl per acc leads cnt exh db log sent

/-! ## Claim C2 -/

/-- Claim C2 is false on the code: `_active_accounts` selects only
`status = 'viva'` rows, so an `Unstable` account with no cooldown — which
satisfies the claimed predicate `status != Dead AND cooldown ok` — is not
selected. -/
theorem C2_counterexample :
    acctUnstable.status ≠ Status.muerta ∧ acctUnstable.cooldownUntil = none ∧
    acctUnstable ∉ activeAccounts 1 "2024-01-01T00:00:00" [acctUnstable] := by
  decide

/-- Claim C2 (amended): the set of accounts selected for a dispatch run is
exactly those with status `Live` (`'viva'`) — not merely non-`Dead` — in
the requested group whose cooldown is absent or has expired; `Unstable`
accounts are never selected. -/
theorem C2_theorem :
    ∀ (gid : Nat) (now : String) (db : List Account) (a : Account),
      a ∈ activeAccounts gid now db ↔
        a ∈ db ∧ a.groupId = gid ∧ a.status = Status.viva ∧
          (∀ c, a.cooldownUntil = some c → strLe c now = true) := by
  intro gid now db a
  rw [mem_activeAccounts, eligibleB_eq_true]

/-- A live cooldown-free account of the right group is selected. -/
theorem C2_witness :
    acctViva1 ∈ activeAccounts 1 "2024-01-01T00:00:00" [acctViva1, acctDead] :=
  (C2_theorem 1 "2024-01-01T00:00:00" [acctViva1, acctDead] acctViva1).mpr
    ⟨by decide, rfl, rfl, fun c h => nomatch h⟩

/-! ## Claim C3 -/

/-- Claim C3 is false on the code: `_update_account_activity` has no guard
on the current status, so a failed attempt recorded against a `Dead`
account changes its status to `Unstable`. -/
theorem C3_counterexample :
    acctDead.status = Status.muerta ∧
    (updateAccountActivity "T" false "boom" acctDead).status = Status.inestable ∧
    (updateAccountActivity "T" false "boom" acctDead).status ≠ acctDead.status := by
  decide

/-- Claim C3 (amended): the post-dispatch health update sets the account's
status to `Unstable` on every failed attempt regardless of its current
status (including `Dead`), and leaves the status unchanged on a successful
attempt (in particular no implicit promotion of `Unstable` to `Live`). -/
theorem C3_theorem :
    ∀ (now err : String) (a : Account),
      (updateAccountActivity now false err a).status = Status.inestable ∧
      (updateAccountActivity now true err a).status = a.status := by
  intro now err a
  exact ⟨rfl, rfl⟩

/-! ## Claim C4 -/

/-- Claim C4 is false on the code: after the only account fails its first
attempt (its stored status becoming `Unstable`, hence ineligible), the
next round-robin pass still attempts it — the run's log holds two entries
for account 1, not one.  No health re-check exists in the loop. -/
theorem C4_counterexample :
    ((passAccounts failSender "T" "m" 10 [acctViva1] [lead1, lead2] true
        [acctViva1] [] 0).1.db.map Account.status = [Status.inestable]) ∧
    eligibleB 1 "T" (updateAccountActivity "T" false "boom" acctViva1) = false ∧
    (runLeadLoop failSender "T" "m" 10 [acctViva1] [acctViva1] [lead1, lead2]).log =
      [⟨1, 11, "error", "boom"⟩, ⟨1, 12, "error", "boom"⟩] ∧
    ¬ (runLeadLoop failSender "T" "m" 10 [acctViva1] [acctViva1]
        [lead1, lead2]).log.length = 1 := by
  decide

/-- Claim C4 (amended): the scheduler performs no health or eligibility
re-check during a run.  The account snapshot taken at run start drives
every pass, and the evolving `accounts` table has no influence on which
attempts are made: the remaining leads, the log and `total_sent` of the
loop are identical for any two database states.  Consequently an account
that becomes `Unstable` mid-run via a failure keeps being attempted on
subsequent passes, as in the concrete run of `C4_counterexample`. -/
theorem C4_theorem :
    (∀ (sender : Account → Lead → String → Option String) (now tpl : String)
      (per fuel : Nat) (accs : List Account) (leads : List Lead)
      (db1 db2 : List Account) (log : List LogEntry) (sent : Nat),
      (runPasses sender now tpl per fuel accs leads db1 log sent).leadsLeft =
        (runPasses sender now tpl per fuel accs leads db2 log sent).leadsLeft ∧
      (runPasses sender now tpl per fuel accs leads db1 log sent).log =
        (runPasses sender now tpl per fuel accs leads db2 log sent).log ∧
      (runPasses sender now tpl per fuel accs leads db1 log sent).totalSent =
        (runPasses sender now tpl per fuel accs leads db2 log sent).totalSent) ∧
    (runLeadLoop failSender "T" "m" 10 [acctViva1] [acctViva1] [lead1, lead2]).log.countP
      (fun e => e.accountId == 1) = 2 := by
  refine ⟨?_, by decide⟩
  intro sender now tpl per fuel accs leads db1 db2 log sent
  exact runPasses_db_irrel sender now tpl per fuel accs leads db1 db2 log sent

/-! ## Claims C5-C7 -/

lemma runLeadLoop_def (sender : Account → Lead → String → Option String)
    (now tpl : String) (per : Nat) (accs db : List Account) (leads : List Lead) :
    runLeadLoop sender now tpl per accs db leads =
      runPasses sender now tpl per (leads.length + 1) accs leads db [] 0 := rfl

/-- Claim C5: a Sender failure on one (account, lead) pair is logged with
outcome `error` and the error text, degrades the account's health to
`Unstable` via the `WHERE id` update, and leaves `exhausted = false` so the
loop moves on; consequently the run attempts every supplied lead exactly
once, in order, no matter how many deliveries fail — a single failure never
terminates the run. -/
theorem C5_theorem (sender : Account → Lead → String → Option String)
    (now tpl : String) (per : Nat) (accs db : List Account) (leads : List Lead)
    (haccs : accs ≠ []) (hper : 1 ≤ per) :
    (runLeadLoop sender now tpl per accs db leads).leadsLeft = [] ∧
    (runLeadLoop sender now tpl per accs db leads).log.map (fun e => e.leadId) =
      leads.map (fun l => l.id) ∧
    (∀ e ∈ (runLeadLoop sender now tpl per accs db leads).log,
      ∃ a, a ∈ accs ∧ ∃ l, l ∈ leads ∧ e = attemptEntry sender tpl a l) ∧
    (∀ (a : Account) (l : Lead) (err : String),
      sender a l (render tpl l) = some err →
        attemptEntry sender tpl a l = ⟨a.id, l.id, "error", err⟩) ∧
    (∀ (acc : Account) (cnt : Nat) (lead : Lead) (rest : List Lead) (exh : Bool)
      (db0 : List Account) (log0 : List LogEntry) (sent0 : Nat) (err : String),
      cnt < per → sender acc lead (render tpl lead) = some err →
        accountTurn sender now tpl per acc cnt (lead :: rest) exh db0 log0 sent0 =
          (⟨rest, applyUpdate acc.id now false err db0,
            log0 ++ [⟨acc.id, lead.id, "error", err⟩], sent0⟩, false)) ∧
    (∀ (now2 err : String) (b : Account),
      (updateAccountActivity now2 false err b).status = Status.inestable) := by
  obtain ⟨r1, r2, r3, r4⟩ :=
    runPasses_spec sender now tpl per hper (leads.length + 1) accs leads db [] 0
      haccs (Nat.lt_succ_self _)
  rw [runLeadLoop_def]
  refine ⟨r1, by simpa using r2, ?_, ?_, ?_, ?_⟩
  · intro e he
    rcases r3 e he with hin | hin
    · exact absurd hin (List.not_mem_nil e)
    · exact hin
  · intro a l err hs
    exact attemptEntry_of_some sender tpl hs
  · intro acc cnt lead rest exh db0 log0 sent0 err hlt hs
    exact accountTurn_some sender now tpl per acc rest exh db0 log0 sent0 hlt hs
  · intro now2 err b
    rfl

/-- The C5 guarantees at a concrete all-failing run. -/
theorem C5_witness :
    (runLeadLoop failSender "T" "m" 1 [acctViva1] [acctViva1] [lead1]).leadsLeft = [] :=
  (C5_theorem failSender "T" "m" 1 [acctViva1] [acctViva1] [lead1]
    (by decide) (by decide)).1

/-- Claim C6: the shared lead cursor is consumed without replacement — the
run's log carries exactly the supplied lead ids, in order, so when the
supplied leads are distinct no lead appears in more than one attempt (in
particular no duplicate successful send) within a run. -/
theorem C6_theorem (sender : Account → Lead → String → Option String)
    (now tpl : String) (per : Nat) (accs db : List Account) (leads : List Lead)
    (haccs : accs ≠ []) (hper : 1 ≤ per)
    (hnodup : (leads.map (fun l => l.id)).Nodup) :
    (runLeadLoop sender now tpl per accs db leads).log.map (fun e => e.leadId) =
      leads.map (fun l => l.id) ∧
    ((runLeadLoop sender now tpl per accs db leads).log.map (fun e => e.leadId)).Nodup := by
  obtain ⟨_, r2, _, _⟩ :=
    runPasses_spec sender now tpl per hper (leads.length + 1) accs leads db [] 0
      haccs (Nat.lt_succ_self _)
  rw [runLeadLoop_def]
  have hmap : (runPasses sender now tpl per (leads.length + 1) accs leads db [] 0).log.map
      (fun e => e.leadId) = leads.map (fun l => l.id) := by simpa using r2
  exact ⟨hmap, hmap ▸ hnodup⟩

/-- The C6 guarantee at a concrete run with two distinct leads. -/
theorem C6_witness :
    ((runLeadLoop okSender "T" "m" 2 [acctViva1] [acctViva1]
      [lead1, lead2]).log.map (fun e => e.leadId)).Nodup :=
  (C6_theorem okSender "T" "m" 2 [acctViva1] [acctViva1] [lead1, lead2]
    (by decide) (by decide) (by decide)).2

lemma sendMessages_completed (sender : Account → Lead → String → Option String)
    (now : String) (db : List Account) (gid : Nat) (leads : List Lead)
    (dmin dmax : Rat) (per : Int) (tpl : String)
    (h1 : activeAccounts gid now db ≠ []) (h2 : leads ≠ [])
    (h3 : ¬(dmin < 0 ∨ dmax < dmin)) (h4 : ¬(per ≤ 0)) :
    sendMessages sender now db gid leads dmin dmax per (some tpl) =
      ⟨RunCondition.completed,
       (runLeadLoop sender now tpl per.toNat (activeAccounts gid now db) db leads).db,
       (runLeadLoop sender now tpl per.toNat (activeAccounts gid now db) db leads).log,
       (runLeadLoop sender now tpl per.toNat (activeAccounts gid now db) db leads).totalSent⟩ := by
  have e1 : (activeAccounts gid now db).isEmpty = false := by
    cases hl : activeAccounts gid now db with
    | nil => exact absurd hl h1
    | cons a l => rfl
  have e2 : leads.isEmpty = false := by
    cases hl : leads with
    | nil => exact absurd hl h2
    | cons a l => rfl
  simp only [sendMessages, e1, e2, Bool.false_eq_true, if_false, if_neg h3, if_neg h4]

/-- Claim C7: with zero pacing delays and a Sender that succeeds on every
call, a run over N eligible accounts capped at L each and M leads
(M ≤ N·L) completes with `sent == M` and `errored == 0`, terminating
because the leads are exhausted. -/
theorem C7_theorem (sender : Account → Lead → String → Option String)
    (now : String) (db : List Account) (gid : Nat) (leads : List Lead)
    (per : Int) (tpl : String)
    (haccs : activeAccounts gid now db ≠ [])
    (hleads : leads ≠ [])
    (hper : 1 ≤ per)
    (_hcap : leads.length ≤ (activeAccounts gid now db).length * per.toNat)
    (hsucc : ∀ a l m, sender a l m = none) :
    (sendMessages sender now db gid leads 0 0 per (some tpl)).condition =
      RunCondition.completed ∧
    (sendMessages sender now db gid leads 0 0 per (some tpl)).totalSent = leads.length ∧
    sentCount (sendMessages sender now db gid leads 0 0 per (some tpl)).log = leads.length ∧
    errorCount (sendMessages sender now db gid leads 0 0 per (some tpl)).log = 0 ∧
    (runLeadLoop sender now tpl per.toNat (activeAccounts gid now db) db leads).leadsLeft
      = [] := by
  have hperN : 1 ≤ per.toNat := by omega
  have hrw := sendMessages_completed sender now db gid leads 0 0 per tpl haccs hleads
    (by simp) (by omega)
  obtain ⟨r1, r2, r3, r4⟩ :=
    runPasses_spec sender now tpl per.toNat hperN (leads.length + 1)
      (activeAccounts gid now db) leads db [] 0 haccs (Nat.lt_succ_self _)
  rw [← runLeadLoop_def] at r1 r2 r3 r4
  have hall : ∀ e ∈ (runLeadLoop sender now tpl per.toNat
      (activeAccounts gid now db) db leads).log, e.status = "sent" := by
    intro e he
    rcases r3 e he with hin | ⟨a, _, l, _, rfl⟩
    · exact absurd hin (List.not_mem_nil e)
    · rw [attemptEntry_of_none sender tpl (hsucc a l (render tpl l))]
  have hlen : (runLeadLoop sender now tpl per.toNat
      (activeAccounts gid now db) db leads).log.length = leads.length := by
    have := congrArg List.length r2
    simpa using this
  have hsent : sentCount (runLeadLoop sender now tpl per.toNat
      (activeAccounts gid now db) db leads).log = leads.length := by
    rw [← hlen, sentCount]
    rw [List.countP_eq_length]
    intro e he
    rw [hall e he]
    rfl
  have herr : errorCount (runLeadLoop sender now tpl per.toNat
      (activeAccounts gid now db) db leads).log = 0 := by
    rw [errorCount, List.countP_eq_zero]
    intro e he
    rw [hall e he]
    decide
  rw [hrw]
  have hts : (runLeadLoop sender now tpl per.toNat
      (activeAccounts gid now db) db leads).totalSent = leads.length := by
    have : sentCount ([] : List LogEntry) = 0 := rfl
    omega
  exact ⟨rfl, hts, hsent, herr, r1⟩

/-- The C7 guarantee at a concrete always-succeeding run. -/
theorem C7_witness :
    (sendMessages okSender "T" [acctViva1] 1 [lead1, lead2] 0 0 2
      (some "m")).totalSent = 2 :=
  (C7_theorem okSender "T" [acctViva1] 1 [lead1, lead2] 2 "m"
    (by decide) (by decide) (by decide) (by decide) (fun _ _ _ => rfl)).2.1

/-! ## Claim C8 -/

/-- Claim C8: rendering is a total pure function of the template and the
lead's two name fields.  A template containing neither `{first_name}` nor
`{last_name}` — in particular one with only unknown placeholders — is
returned verbatim; `{last_name}` is replaced by the lead's field (empty
when the field is `NULL`); `{first_name}` likewise (stated under the
proviso that the substituted text does not itself contain `{last_name}`,
since the source substitutes sequentially); equal inputs give equal
output; and `NULL` fields substitute the empty string. -/
theorem C8_theorem :
    (∀ (t : String) (lead : Lead),
      containsSub "{first_name}".data t.data = false →
      containsSub "{last_name}".data t.data = false → render t lead = t) ∧
    (∀ lead : Lead, render "{last_name}" lead = lead.lastName.getD "") ∧
    (∀ lead : Lead,
      containsSub "{last_name}".data (lead.firstName.getD "").data = false →
      render "{first_name}" lead = lead.firstName.getD "") ∧
    (∀ (t : String) (l1 l2 : Lead), l1.firstName = l2.firstName →
      l1.lastName = l2.lastName → render t l1 = render t l2) ∧
    (∀ lead : Lead, lead.firstName = none → lead.lastName = none →
      render "{first_name} {last_name}" lead = " ") := by
  refine ⟨?_, ?_, ?_, ?_, ?_⟩
  · intro t lead h1 h2
    rw [render, replaceAll_of_not_contains _ _ _ h1,
      replaceAll_of_not_contains _ _ _ h2, string_mk_data]
  · intro lead
    rw [render,
      replaceAll_of_not_contains "{first_name}".data (lead.firstName.getD "").data
        "{last_name}".data (by decide),
      replaceAll_self "{last_name}".data (lead.lastName.getD "").data (by decide),
      string_mk_data]
  · intro lead hfn
    rw [render,
      replaceAll_self "{first_name}".data (lead.firstName.getD "").data (by decide),
      replaceAll_of_not_contains "{last_name}".data (lead.lastName.getD "").data
        (lead.firstName.getD "").data hfn, string_mk_data]
  · intro t l1 l2 h1 h2
    rw [render, render, h1, h2]
  · intro lead h1 h2
    rw [render, h1, h2]
    rfl

/-- The C8 guarantees at concrete inputs: an unknown placeholder survives
verbatim and `{first_name}` is substituted. -/
theorem C8_witness :
    render "Hola {company}" lead1 = "Hola {company}" ∧
    render "{first_name}" lead1 = lead1.firstName.getD "" :=
  ⟨C8_theorem.1 "Hola {company}" lead1 (by decide) (by decide),
   C8_theorem.2.2.1 lead1 (by decide)⟩

/-! ## Claim C9 -/

/-- Claim C9: when any precondition fails — no eligible account, empty
lead list, `delay_min < 0`, `delay_max < delay_min`, or
`per_account < 1` — `send_messages` returns before any dispatch attempt:
no log entry is appended, the `accounts` table is untouched, `total_sent`
is zero, and the run never reaches the dispatch loop. -/
theorem C9_theorem (sender : Account → Lead → String → Option String)
    (now : String) (db : List Account) (gid : Nat) (leads : List Lead)
    (dmin dmax : Rat) (per : Int) (tplOpt : Option String)
    (h : activeAccounts gid now db = [] ∨ leads = [] ∨ dmin < 0 ∨
      dmax < dmin ∨ per < 1) :
    (sendMessages sender now db gid leads dmin dmax per tplOpt).log = [] ∧
    (sendMessages sender now db gid leads dmin dmax per tplOpt).accountsDb = db ∧
    (sendMessages sender now db gid leads dmin dmax per tplOpt).totalSent = 0 ∧
    (sendMessages sender now db gid leads dmin dmax per tplOpt).condition ≠
      RunCondition.completed := by
  simp only [sendMessages]
  split_ifs with h1 h2 h3 h4
  · exact ⟨rfl, rfl, rfl, by simp⟩
  · exact ⟨rfl, rfl, rfl, by simp⟩
  · exact ⟨rfl, rfl, rfl, by simp⟩
  · exact ⟨rfl, rfl, rfl, by simp⟩
  · cases tplOpt with
    | none => exact ⟨rfl, rfl, rfl, by simp⟩
    | some tpl =>
      exfalso
      rcases h with hc | hc | hc | hc | hc
      · rw [hc] at h1
        exact h1 rfl
      · rw [hc] at h2
        exact h2 rfl
      · exact h3 (Or.inl hc)
      · exact h3 (Or.inr hc)
      · exact h4 (by omega)

/-- The C9 guarantee at a concrete invalid-pacing input. -/
theorem C9_witness :
    (sendMessages okSender "T" [acctViva1] 1 [lead1] 5 1 10 (some "m")).log = [] ∧
    (sendMessages okSender "T" [acctViva1] 1 [lead1] 5 1 10 (some "m")).accountsDb =
      [acctViva1] ∧
    (sendMessages okSender "T" [acctViva1] 1 [lead1] 5 1 10 (some "m")).totalSent = 0 ∧
    (sendMessages okSender "T" [acctViva1] 1 [lead1] 5 1 10 (some "m")).condition ≠
      RunCondition.completed :=
  C9_theorem okSender "T" [acctViva1] 1 [lead1] 5 1 10 (some "m")
    (Or.inr (Or.inr (Or.inr (Or.inl (by decide)))))

/-! ## Claim C10 -/

/-- Claim C10: the health update touches only `last_activity`,
`last_message_at`, `last_error` and `status` of the row matching the
attempting account's id — identity, credentials, proxy, session data,
group and cooldown are untouched, `last_error` becomes `NULL` and
`last_message_at` the current time on success, while on failure
`last_message_at` is kept and the error text stored — and every other row
of the table is left in place unchanged. -/
theorem C10_theorem :
    (∀ (now : String) (success : Bool) (err : String) (a : Account),
      (updateAccountActivity now success err a).id = a.id ∧
      (updateAccountActivity now success err a).groupId = a.groupId ∧
      (updateAccountActivity now success err a).username = a.username ∧
      (updateAccountActivity now success err a).aliasName = a.aliasName ∧
      (updateAccountActivity now success err a).password = a.password ∧
      (updateAccountActivity now success err a).proxy = a.proxy ∧
      (updateAccountActivity now success err a).sessionData = a.sessionData ∧
      (updateAccountActivity now success err a).cooldownUntil = a.cooldownUntil ∧
      (updateAccountActivity now success err a).lastActivity = some now ∧
      (updateAccountActivity now success err a).lastMessageAt =
        (if success then some now else a.lastMessageAt) ∧
      (updateAccountActivity now success err a).lastError =
        (if success then none else some err) ∧
      (updateAccountActivity now success err a).status =
        (if success then a.status else Status.inestable)) ∧
    (∀ (now : String) (success : Bool) (err : String) (accId : Nat)
      (db : List Account) (b : Account), b ∈ db → b.id ≠ accId →
        b ∈ applyUpdate accId now success err db) := by
  refine ⟨?_, ?_⟩
  · intro now success err a
    exact ⟨rfl, rfl, rfl, rfl, rfl, rfl, rfl, rfl, rfl, rfl, rfl, rfl⟩
  · intro now success err accId db b hb hne
    have hfix : (fun a => if a.id == accId then updateAccountActivity now success err a
        else a) b = b := by
      simp [hne]
    rw [applyUpdate, ← hfix]
    exact List.mem_map_of_mem _ hb

/-- The C10 frame guarantee at a concrete table: the non-matching row is
untouched by the update. -/
theorem C10_witness :
    acctViva2 ∈ applyUpdate 1 "T" true "" [acctViva1, acctViva2] :=
  C10_theorem.2 "T" true "" 1 [acctViva1, acctViva2] acctViva2
    (by decide) (by decide)
